import Mathlib

/-!
Shallow embedding of the todo-list client (BaayXaliil/todo-list).

The data model follows src/src/app/models/todo.model.ts, the list-view
logic follows src/src/app/components/todo-list/todo-list.component.ts, and
the edit-dialog logic follows the TodoModalComponent in the same sources.
JavaScript Date values are abstracted by a DateEnv record: parsing a date
string either fails (invalid date, modelled as none) or yields a JSDate
carrying the epoch time together with the local calendar fields; the
current instant is the field now.
-/

/-- Priority enum from todo.model.ts: Facile, Moyen, Difficile. -/
inductive Priority where
  | Facile
  | Moyen
  | Difficile
deriving DecidableEq, Repr

/-- String value of each Priority enum member, as in the source enum. -/
def Priority.str : Priority → String
  | .Facile => "Facile"
  | .Moyen => "Moyen"
  | .Difficile => "Difficile"

/-- Rank of a priority in the three-level order Facile < Moyen < Difficile. -/
def Priority.rank : Priority → Nat
  | .Facile => 0
  | .Moyen => 1
  | .Difficile => 2

/-- Label enum from todo.model.ts: HTML, CSS, NODEJS, JQUERY. -/
inductive Label where
  | HTML
  | CSS
  | NODEJS
  | JQUERY
deriving DecidableEq, Repr

/-- String value of each Label enum member, as in the source enum. -/
def Label.str : Label → String
  | .HTML => "HTML"
  | .CSS => "CSS"
  | .NODEJS => "NODE JS"
  | .JQUERY => "JQUERY"

/-- Modelled from the spec: person.model.ts is not among the source files;
spec section 3 gives a Person an identifier and a display name. -/
structure Person where
  id : Int
  name : String
deriving DecidableEq, Repr

/-- A JavaScript Date value that parsed successfully: epoch milliseconds
plus the local calendar fields used by getFullYear, getMonth, getDate. -/
structure JSDate where
  time : Int
  year : Int
  month : Nat
  day : Nat
deriving DecidableEq, Repr

/-- Environment abstracting the JavaScript date facilities: parse models
the Date constructor on a string (none when the result is an Invalid
Date), now models the current instant, fmtFR models
toLocaleDateString applied with the fr-FR locale, and toISO models
toISOString. -/
structure DateEnv where
  parse : String → Option JSDate
  now : JSDate
  fmtFR : JSDate → String
  toISO : JSDate → String

/-- Todo record from todo.model.ts. Fields that the component code guards
with optional chaining or nullish coalescing are modelled as Option. -/
structure Todo where
  id : Option Int
  titre : String
  person : Option Person
  startDate : String
  endDate : Option String
  priority : Option Priority
  labels : Option (List Label)
  description : Option String
deriving DecidableEq, Repr

/-- View-mode selector type from todo-list.component.ts. -/
inductive ViewFilter where
  | all
  | priority
  | today
  | completed
deriving DecidableEq, Repr

/-- A list of characters starts with the given pattern. Models the prefix
test underlying String.prototype.includes. -/
def charsStartWith : List Char → List Char → Bool
  | _, [] => true
  | [], _ :: _ => false
  | a :: as, b :: bs => decide (a = b) && charsStartWith as bs

/-- A list of characters contains the pattern as a contiguous run. -/
def charsContain : List Char → List Char → Bool
  | [], pat => pat.isEmpty
  | a :: as, pat => charsStartWith (a :: as) pat || charsContain as pat

/-- Models String.prototype.includes: the pattern occurs in the string. -/
def jsIncludes (s pattern : String) : Bool :=
  charsContain s.data pattern.data

/-- Models String.prototype.trim: strip leading and trailing whitespace. -/
def jsTrim (s : String) : String :=
  ⟨((s.data.dropWhile Char.isWhitespace).reverse.dropWhile
      Char.isWhitespace).reverse⟩

/-- Models String.prototype.toLowerCase: lowercase every character. -/
def jsToLower (s : String) : String :=
  ⟨s.data.map Char.toLower⟩

/-- State of TodoListComponent: the fields the list-view logic reads and
writes. -/
structure ListState where
  viewFilter : ViewFilter
  searchTerm : String
  total : Nat
  page : Nat
  perPage : Nat
  pagedTodos : List Todo
  allTodos : List Todo
  filteredTodos : List Todo
  currentPriority : Option Priority
  currentLabel : Option Label
deriving DecidableEq, Repr

/-- Initial field values of TodoListComponent. -/
def initListState : ListState :=
  { viewFilter := .all
    searchTerm := ""
    total := 0
    page := 1
    perPage := 15
    pagedTodos := []
    allTodos := []
    filteredTodos := []
    currentPriority := none
    currentLabel := none }

/-- isCompleted from todo-list.component.ts: false without an end date
(or with the falsy empty string), otherwise the parsed end date is
strictly before now; an invalid date compares false, as NaN does. -/
def isCompleted (env : DateEnv) (todo : Todo) : Bool :=
  match todo.endDate with
  | none => false
  | some s =>
    if s = "" then false
    else
      match env.parse s with
      | none => false
      | some d => decide (d.time < env.now.time)

/-- isToday from todo-list.component.ts: the parsed date shares year,
month and day with the reference date new Date(). -/
def isToday (env : DateEnv) (dateValue : Option String) : Bool :=
  match dateValue with
  | none => false
  | some s =>
    if s = "" then false
    else
      match env.parse s with
      | none => false
      | some d =>
        decide (d.year = env.now.year) && decide (d.month = env.now.month)
          && decide (d.day = env.now.day)

/-- matchesViewFilter from todo-list.component.ts. -/
def matchesViewFilter (env : DateEnv) (vf : ViewFilter) (todo : Todo) : Bool :=
  match vf with
  | .priority => decide (todo.priority = some Priority.Difficile)
  | .today => isToday env (some todo.startDate)
  | .completed => isCompleted env todo
  | .all => true

/-- Search closure inside applyFilters: the already trimmed and lowercased
term is matched against the lowercased title and the lowercased name of
the assigned person, each defaulting to the empty string. -/
def searchMatches (term : String) (todo : Todo) : Bool :=
  let title := jsToLower todo.titre
  let person := (todo.person.map (fun p => jsToLower p.name)).getD ""
  jsIncludes title term || jsIncludes person term

/-- Ceiling division on Nat, the value of Math.ceil(a / b) for b > 0. -/
def ceilDivNat (a b : Nat) : Nat :=
  (a + b - 1) / b

/-- updatePagedTodos from todo-list.component.ts: clamp the page to the
page count (at least 1) and slice the filtered list. -/
def updatePagedTodos (s : ListState) : ListState :=
  let totalPages := max 1 (ceilDivNat s.total s.perPage)
  let page := min s.page totalPages
  { s with
      page := page
      pagedTodos := (s.filteredTodos.drop ((page - 1) * s.perPage)).take s.perPage }

/-- applyFilters from todo-list.component.ts: successive filters for the
view mode, the priority filter, the label filter and the search term,
then total and the paged slice are recomputed. -/
def applyFilters (env : DateEnv) (s : ListState) : ListState :=
  let filtered1 := s.allTodos.filter (fun todo => matchesViewFilter env s.viewFilter todo)
  let filtered2 :=
    match s.currentPriority with
    | none => filtered1
    | some p => filtered1.filter (fun todo => decide (todo.priority = some p))
  let filtered3 :=
    match s.currentLabel with
    | none => filtered2
    | some l => filtered2.filter (fun todo => decide (l ∈ todo.labels.getD []))
  let filtered4 :=
    if jsTrim s.searchTerm = "" then filtered3
    else filtered3.filter (searchMatches (jsToLower (jsTrim s.searchTerm)))
  updatePagedTodos { s with filteredTodos := filtered4, total := filtered4.length }

/-- setViewFilter from todo-list.component.ts. -/
def setViewFilter (env : DateEnv) (filter : ViewFilter) (s : ListState) : ListState :=
  applyFilters env { s with viewFilter := filter, page := 1 }

/-- setPriorityFilter from todo-list.component.ts; none models the empty
string member of the union type. -/
def setPriorityFilter (env : DateEnv) (value : Option Priority) (s : ListState) : ListState :=
  applyFilters env { s with currentPriority := value, page := 1 }

/-- setLabelFilter from todo-list.component.ts: selecting the value that
is already active clears the label filter. -/
def setLabelFilter (env : DateEnv) (value : Option Label) (s : ListState) : ListState :=
  applyFilters env
    { s with
        currentLabel := if s.currentLabel = value then none else value
        page := 1 }

/-- setSearchTerm from todo-list.component.ts. -/
def setSearchTerm (env : DateEnv) (term : String) (s : ListState) : ListState :=
  applyFilters env { s with searchTerm := term, page := 1 }

/-- resetFilters from todo-list.component.ts. -/
def resetFilters (env : DateEnv) (s : ListState) : ListState :=
  applyFilters env
    { s with
        viewFilter := .all
        currentPriority := none
        currentLabel := none
        searchTerm := ""
        page := 1 }

/-- loadTodos from todo-list.component.ts, with the todos delivered by
the subscription passed explicitly: store them and reapply the filters. -/
def loadTodos (env : DateEnv) (todos : List Todo) (s : ListState) : ListState :=
  applyFilters env { s with allTodos := todos }

/-- nextPage from todo-list.component.ts: no-op once the page times the
page size reaches the total. -/
def nextPage (s : ListState) : ListState :=
  if s.page * s.perPage ≥ s.total then s
  else updatePagedTodos { s with page := s.page + 1 }

/-- previousPage from todo-list.component.ts: no-op on page 1. -/
def previousPage (s : ListState) : ListState :=
  if s.page = 1 then s
  else updatePagedTodos { s with page := s.page - 1 }

/-- One flat export row with the fixed column order of buildExportRows:
Tache, Responsable, Priorite, Etiquettes, Debut, Fin, Description. -/
structure ExportRow where
  tache : String
  responsable : String
  priorite : String
  etiquettes : String
  debut : String
  fin : String
  description : String
deriving DecidableEq, Repr

/-- formatDateForExport from todo-list.component.ts: empty string for a
missing value, the falsy empty string, or an invalid date; otherwise the
fr-FR locale rendering. -/
def formatDateForExport (env : DateEnv) (value : Option String) : String :=
  match value with
  | none => ""
  | some s =>
    if s = "" then ""
    else
      match env.parse s with
      | none => ""
      | some d => env.fmtFR d

/-- buildExportRows from todo-list.component.ts: one row per filtered
todo. -/
def buildExportRows (env : DateEnv) (s : ListState) : List ExportRow :=
  s.filteredTodos.map (fun todo =>
    { tache := todo.titre
      responsable := (todo.person.map (fun p => p.name)).getD "Sans responsable"
      priorite := (todo.priority.map Priority.str).getD ""
      etiquettes := String.intercalate ", " ((todo.labels.getD []).map Label.str)
      debut := formatDateForExport env (some todo.startDate)
      fin := formatDateForExport env todo.endDate
      description := todo.description.getD "" })

/-- Mode of the edit dialog, from TodoModalData. -/
inductive ModalMode where
  | create
  | edit
deriving DecidableEq, Repr

/-- Touched flags of the seven form controls; markAllAsTouched sets all
of them. -/
structure Touched where
  titre : Bool
  personId : Bool
  startDate : Bool
  endDate : Bool
  priority : Bool
  labels : Bool
  description : Bool
deriving DecidableEq, Repr

/-- Values and touched flags of the reactive form built by buildForm in
the TodoModalComponent: titre, personId, startDate and priority carry a
required validator; startDate and endDate hold Date values. -/
structure ModalForm where
  titre : String
  personId : Option Int
  startDate : Option JSDate
  endDate : Option JSDate
  priority : Option Priority
  labels : List Label
  description : String
  touched : Touched
deriving DecidableEq, Repr

/-- State of TodoModalComponent: dialog data, loaded persons, the form,
the saving flag, and whether close has been called (with which result). -/
structure ModalState where
  mode : ModalMode
  origTodo : Option Todo
  persons : List Person
  form : ModalForm
  isSaving : Bool
  closed : Option Bool
deriving DecidableEq, Repr

/-- Validity of the form: each required control fails its validator
exactly when its value is the empty string or null. -/
def formInvalid (f : ModalForm) : Bool :=
  decide (f.titre = "") || decide (f.personId = none)
    || decide (f.startDate = none) || decide (f.priority = none)

/-- markAllAsTouched on the form group: every control becomes touched. -/
def markAllAsTouched (f : ModalForm) : ModalForm :=
  { f with touched := ⟨true, true, true, true, true, true, true⟩ }

/-- buildPayload from the TodoModalComponent: spread the original todo,
then override with the form values; the person is looked up in the
loaded list, falling back to the original person of the todo. -/
def buildPayload (env : DateEnv) (s : ModalState) : Todo :=
  let raw := s.form
  let person := s.persons.find? (fun p => decide (some p.id = raw.personId))
  { id := s.origTodo.bind (fun t => t.id)
    titre := raw.titre
    person :=
      match person with
      | some p => some p
      | none => s.origTodo.bind (fun t => t.person)
    startDate :=
      match raw.startDate with
      | some d => env.toISO d
      | none => ""
    endDate := raw.endDate.map env.toISO
    priority := raw.priority
    labels := some raw.labels
    description := some raw.description }

/-- A request emitted by save: create with a payload, or update of the
identifier of the original todo with a payload. -/
inductive SaveRequest where
  | create (payload : Todo)
  | update (id : Option Int) (payload : Todo)
deriving DecidableEq, Repr

/-- save from the TodoModalComponent: with an invalid form, mark every
control touched and send nothing; otherwise set the saving flag and emit
the create or update request. The dialog is closed only later, in the
subscription callback, never synchronously in save. -/
def save (env : DateEnv) (s : ModalState) : ModalState × Option SaveRequest :=
  if formInvalid s.form then
    ({ s with form := markAllAsTouched s.form }, none)
  else
    let payload := buildPayload env s
    let req :=
      match s.mode with
      | .create => SaveRequest.create payload
      | .edit => SaveRequest.update (s.origTodo.bind (fun t => t.id)) payload
    ({ s with isSaving := true }, some req)

/-- Priority-filter predicate, active exactly when a priority is set. -/
def prioPredOf (cur : Option Priority) (todo : Todo) : Bool :=
  match cur with
  | none => true
  | some p => decide (todo.priority = some p)

/-- Label-filter predicate, active exactly when a label is set. -/
def labelPredOf (cur : Option Label) (todo : Todo) : Bool :=
  match cur with
  | none => true
  | some l => decide (l ∈ todo.labels.getD [])

/-- Search predicate, active exactly when the term is nonempty after
trimming. -/
def searchPredOf (term : String) (todo : Todo) : Bool :=
  if jsTrim term = "" then true
  else searchMatches (jsToLower (jsTrim term)) todo

/-- Conjunction of the four active filter predicates of a list state. -/
def keepTodo (env : DateEnv) (s : ListState) (todo : Todo) : Bool :=
  ((matchesViewFilter env s.viewFilter todo && prioPredOf s.currentPriority todo)
      && labelPredOf s.currentLabel todo)
    && searchPredOf s.searchTerm todo

/-- Concrete date environment in which no string parses as a valid date,
used to instantiate theorems on concrete states. -/
def datelessEnv : DateEnv :=
  { parse := fun _ => none
    now := ⟨0, 0, 0, 0⟩
    fmtFR := fun _ => ""
    toISO := fun _ => "" }

theorem updatePagedTodos_filteredTodos (s : ListState) :
    (updatePagedTodos s).filteredTodos = s.filteredTodos := rfl

theorem updatePagedTodos_total (s : ListState) :
    (updatePagedTodos s).total = s.total := rfl

theorem updatePagedTodos_perPage (s : ListState) :
    (updatePagedTodos s).perPage = s.perPage := rfl

theorem updatePagedTodos_page (s : ListState) :
    (updatePagedTodos s).page = min s.page (max 1 (ceilDivNat s.total s.perPage)) := rfl

theorem updatePagedTodos_pagedTodos (s : ListState) :
    (updatePagedTodos s).pagedTodos =
      ((s.filteredTodos.drop
        ((min s.page (max 1 (ceilDivNat s.total s.perPage)) - 1) * s.perPage)).take
        s.perPage) := rfl

theorem filter_stage_prio (cur : Option Priority) (l : List Todo) :
    (match cur with
     | none => l
     | some p => l.filter (fun todo => decide (todo.priority = some p))) =
    l.filter (fun todo => prioPredOf cur todo) := by
  cases cur with
  | none => simp [prioPredOf]
  | some p => rfl

theorem filter_stage_label (cur : Option Label) (l : List Todo) :
    (match cur with
     | none => l
     | some lab => l.filter (fun todo => decide (lab ∈ todo.labels.getD []))) =
    l.filter (fun todo => labelPredOf cur todo) := by
  cases cur with
  | none => simp [labelPredOf]
  | some lab => rfl

theorem filter_stage_search (term : String) (l : List Todo) :
    (if jsTrim term = "" then l
     else l.filter (searchMatches (jsToLower (jsTrim term)))) =
    l.filter (fun todo => searchPredOf term todo) := by
  by_cases h : jsTrim term = "" <;> simp [searchPredOf, h]

theorem bool_and_reorder (a b c d : Bool) :
    (((d && c) && b) && a) = (((a && b) && c) && d) := by
  cases a <;> cases b <;> cases c <;> cases d <;> rfl

theorem applyFilters_filteredTodos (env : DateEnv) (s : ListState) :
    (applyFilters env s).filteredTodos =
      s.allTodos.filter (fun todo => keepTodo env s todo) := by
  show (updatePagedTodos _).filteredTodos = _
  rw [updatePagedTodos_filteredTodos]
  show (if jsTrim s.searchTerm = "" then _ else _) = _
  rw [filter_stage_search, filter_stage_prio, filter_stage_label,
    List.filter_filter, List.filter_filter, List.filter_filter]
  simp only [keepTodo]
  exact List.filter_congr (fun todo _ => bool_and_reorder _ _ _ _)

theorem applyFilters_total (env : DateEnv) (s : ListState) :
    (applyFilters env s).total = (applyFilters env s).filteredTodos.length := rfl

/-- C5: starting from a state with no active label filter, toggling the
same label value twice through setLabelFilter returns the label filter to
its unfiltered state. -/
theorem setLabelFilter_double_toggle (env : DateEnv) (s : ListState) (v : Label)
    (h : s.currentLabel = none) :
    (setLabelFilter env (some v) (setLabelFilter env (some v) s)).currentLabel = none := by
  simp [setLabelFilter, applyFilters, updatePagedTodos, h]

theorem setLabelFilter_double_toggle_witness :
    (setLabelFilter datelessEnv (some Label.CSS)
      (setLabelFilter datelessEnv (some Label.CSS) initListState)).currentLabel = none :=
  setLabelFilter_double_toggle datelessEnv initListState Label.CSS rfl

/-- C7: previousPage on page 1 leaves the whole state unchanged, and
nextPage leaves the whole state unchanged as soon as page times page size
reaches the total. -/
theorem pagination_noops (s : ListState) :
    (s.page = 1 → previousPage s = s) ∧
    (s.page * s.perPage ≥ s.total → nextPage s = s) := by
  constructor
  · intro h
    simp [previousPage, h]
  · intro h
    simp [nextPage, h]

theorem pagination_noops_witness :
    previousPage initListState = initListState ∧
    nextPage initListState = initListState :=
  ⟨(pagination_noops initListState).1 rfl,
   (pagination_noops initListState).2 (by decide)⟩

/-- C1: for every task array and every combination of the four filter
inputs held in the state, applyFilters computes a filteredTodos sequence
equal to filtering the input by the conjunction of the four active
predicates, hence a subsequence of the input, and total equals its
length. -/
theorem applyFilters_and_composition (env : DateEnv) (s : ListState) :
    (applyFilters env s).filteredTodos =
      s.allTodos.filter (fun todo => keepTodo env s todo) ∧
    List.Sublist (applyFilters env s).filteredTodos s.allTodos ∧
    (applyFilters env s).total = (applyFilters env s).filteredTodos.length := by
  refine ⟨applyFilters_filteredTodos env s, ?_, rfl⟩
  rw [applyFilters_filteredTodos]
  exact List.filter_sublist _

/-- C2: with page size 15 and total equal to the filtered length, after
updatePagedTodos the displayed page is the contiguous slice of
filteredTodos starting at (page - 1) * 15 for the clamped page, its
length is min 15 (total - (page - 1) * 15), and it is empty when total
is 0. -/
theorem updatePagedTodos_slice (s : ListState)
    (hpp : s.perPage = 15) (ht : s.total = s.filteredTodos.length) :
    ((updatePagedTodos s).pagedTodos =
      (s.filteredTodos.drop (((updatePagedTodos s).page - 1) * 15)).take 15) ∧
    ((updatePagedTodos s).pagedTodos.length =
      min 15 (s.total - ((updatePagedTodos s).page - 1) * 15)) ∧
    (s.total = 0 → (updatePagedTodos s).pagedTodos = []) := by
  refine ⟨?_, ?_, ?_⟩
  · rw [updatePagedTodos_pagedTodos, updatePagedTodos_page, hpp]
  · rw [updatePagedTodos_pagedTodos, List.length_take, List.length_drop,
      updatePagedTodos_page, hpp, ht]
  · intro h0
    have hnil : s.filteredTodos = [] := List.length_eq_zero.mp (by omega)
    rw [updatePagedTodos_pagedTodos, hnil]
    simp

/-- Sample task used to build concrete witness states. -/
def sampleTodo : Todo :=
  { id := none
    titre := "T"
    person := none
    startDate := ""
    endDate := none
    priority := none
    labels := none
    description := none }

/-- Concrete list state holding 16 identical filtered tasks on the given
page. -/
def state16 (pg : Nat) : ListState :=
  { initListState with
      filteredTodos := List.replicate 16 sampleTodo
      total := 16
      page := pg }

theorem updatePagedTodos_slice_witness :
    (updatePagedTodos (state16 1)).pagedTodos.length = 15 ∧
    (updatePagedTodos (state16 2)).pagedTodos.length = 1 := by
  have h1 := (updatePagedTodos_slice (state16 1) rfl (by decide)).2.1
  have h2 := (updatePagedTodos_slice (state16 2) rfl (by decide)).2.1
  rw [h1, h2]
  constructor <;> decide

theorem applyFilters_page (env : DateEnv) (s : ListState) :
    (applyFilters env s).page =
      min s.page (max 1 (ceilDivNat (applyFilters env s).total s.perPage)) := rfl

/-- C6 counterexample: on the empty task set applyFilters leaves page at
1 while the interval [1, ceil(total / pageSize)] is [1, 0], so the page
is not inside it. -/
theorem page_clamp_counterexample :
    (applyFilters datelessEnv initListState).total = 0 ∧
    (applyFilters datelessEnv initListState).page = 1 ∧
    ¬((applyFilters datelessEnv initListState).page ≤
        ceilDivNat (applyFilters datelessEnv initListState).total 15) := by
  have htot : (applyFilters datelessEnv initListState).total = 0 := by
    rw [applyFilters_total, applyFilters_filteredTodos]
    rfl
  have hpage : (applyFilters datelessEnv initListState).page = 1 := by
    rw [applyFilters_page, htot]
    decide
  refine ⟨htot, hpage, ?_⟩
  rw [hpage, htot]
  decide

/-- C6 amended: whenever applyFilters recomputes total, the page is
clamped into [1, max 1 (ceil(total / pageSize))], which degenerates to
page 1 when total is 0. -/
theorem applyFilters_page_clamped (env : DateEnv) (s : ListState)
    (hpp : s.perPage = 15) (hpg : 1 ≤ s.page) :
    1 ≤ (applyFilters env s).page ∧
    (applyFilters env s).page ≤
      max 1 (ceilDivNat (applyFilters env s).total 15) := by
  rw [applyFilters_page, hpp]
  exact ⟨Nat.le_min.mpr ⟨hpg, Nat.le_max_left 1 _⟩, Nat.min_le_right _ _⟩

theorem applyFilters_page_clamped_witness :
    1 ≤ (applyFilters datelessEnv initListState).page ∧
    (applyFilters datelessEnv initListState).page ≤
      max 1 (ceilDivNat (applyFilters datelessEnv initListState).total 15) :=
  applyFilters_page_clamped datelessEnv initListState rfl (by decide)

/-- Page invariant of the list view: the page is at least 1 and at most
the page count, itself at least 1. -/
def pageInv (s : ListState) : Prop :=
  1 ≤ s.page ∧ s.page ≤ max 1 (ceilDivNat s.total s.perPage)

theorem updatePagedTodos_pageInv (s : ListState) (h : 1 ≤ s.page) :
    pageInv (updatePagedTodos s) := by
  unfold pageInv
  rw [updatePagedTodos_page, updatePagedTodos_total, updatePagedTodos_perPage]
  exact ⟨Nat.le_min.mpr ⟨h, Nat.le_max_left 1 _⟩, Nat.min_le_right _ _⟩

theorem applyFilters_pageInv (env : DateEnv) (s : ListState) (h : 1 ≤ s.page) :
    pageInv (applyFilters env s) := by
  unfold pageInv
  rw [applyFilters_page]
  have htot : (applyFilters env s).total = (applyFilters env s).total := rfl
  refine ⟨Nat.le_min.mpr ⟨h, Nat.le_max_left 1 _⟩, ?_⟩
  have hpp : (applyFilters env s).perPage = s.perPage := rfl
  rw [hpp]
  exact Nat.min_le_right _ _

/-- C10: the page invariant 1 ≤ page ≤ max 1 (ceil(total / perPage)) is
preserved by every public list-view operation: loadTodos with any fetched
array, the four filter and search setters, resetFilters, nextPage and
previousPage. -/
theorem page_invariant_preserved (env : DateEnv) (s : ListState) (todos : List Todo)
    (vf : ViewFilter) (pv : Option Priority) (lv : Option Label) (term : String)
    (h : pageInv s) :
    pageInv (loadTodos env todos s) ∧ pageInv (setViewFilter env vf s) ∧
    pageInv (setPriorityFilter env pv s) ∧ pageInv (setLabelFilter env lv s) ∧
    pageInv (setSearchTerm env term s) ∧ pageInv (resetFilters env s) ∧
    pageInv (nextPage s) ∧ pageInv (previousPage s) := by
  obtain ⟨h1, h2⟩ := h
  refine ⟨applyFilters_pageInv env _ h1, applyFilters_pageInv env _ (Nat.le_refl 1),
    applyFilters_pageInv env _ (Nat.le_refl 1), applyFilters_pageInv env _ (Nat.le_refl 1),
    applyFilters_pageInv env _ (Nat.le_refl 1), applyFilters_pageInv env _ (Nat.le_refl 1),
    ?_, ?_⟩
  · unfold nextPage
    split
    · exact ⟨h1, h2⟩
    · have hp : (1 : Nat) ≤ s.page + 1 := by omega
      exact updatePagedTodos_pageInv _ hp
  · unfold previousPage
    split
    · exact ⟨h1, h2⟩
    · next hne =>
        have hp : (1 : Nat) ≤ s.page - 1 := by omega
        exact updatePagedTodos_pageInv _ hp

theorem page_invariant_preserved_witness :
    pageInv (loadTodos datelessEnv [sampleTodo] initListState) ∧
    pageInv (setViewFilter datelessEnv .all initListState) ∧
    pageInv (setPriorityFilter datelessEnv none initListState) ∧
    pageInv (setLabelFilter datelessEnv none initListState) ∧
    pageInv (setSearchTerm datelessEnv "x" initListState) ∧
    pageInv (resetFilters datelessEnv initListState) ∧
    pageInv (nextPage initListState) ∧ pageInv (previousPage initListState) :=
  page_invariant_preserved datelessEnv initListState [sampleTodo] .all none none "x"
    ⟨by decide, by decide⟩

/-- C3: characterization of the view-mode predicate. Mode priority keeps
a task exactly when its priority is Difficile, the top of the three-level
order; mode today keeps it exactly when its start date parses to the
current local calendar day; mode completed keeps it exactly when its end
date parses to an instant strictly before now, so a task without an end
date is never completed; mode all keeps every task. -/
theorem matchesViewFilter_spec (env : DateEnv) (t : Todo) :
    ((matchesViewFilter env .priority t = true ↔
        t.priority = some Priority.Difficile) ∧
      ∀ p : Priority, p.rank ≤ Priority.Difficile.rank) ∧
    (matchesViewFilter env .today t = true ↔
      t.startDate ≠ "" ∧ ∃ d, env.parse t.startDate = some d ∧
        d.year = env.now.year ∧ d.month = env.now.month ∧ d.day = env.now.day) ∧
    ((matchesViewFilter env .completed t = true ↔
        ∃ str d, t.endDate = some str ∧ str ≠ "" ∧ env.parse str = some d ∧
          d.time < env.now.time) ∧
      (t.endDate = none → matchesViewFilter env .completed t = false)) ∧
    (matchesViewFilter env .all t = true) := by
  refine ⟨⟨by simp [matchesViewFilter], fun p => by cases p <;> decide⟩, ?_, ⟨?_, ?_⟩, rfl⟩
  · show isToday env (some t.startDate) = true ↔ _
    unfold isToday
    by_cases hs : t.startDate = ""
    · simp [hs]
    · simp only [hs, if_false, ne_eq, not_false_iff, true_and]
      cases hp : env.parse t.startDate with
      | none =>
        simp only [Option.some.injEq]
        constructor
        · intro hfalse
          exact absurd hfalse (by decide)
        · rintro ⟨d2, hd2, _⟩
          exact absurd hd2 (by simp)
      | some d =>
        simp only [Option.some.injEq, Bool.and_eq_true, decide_eq_true_eq]
        constructor
        · rintro ⟨⟨hy, hm⟩, hd⟩
          exact ⟨d, rfl, hy, hm, hd⟩
        · rintro ⟨d2, hd2, hy, hm, hd⟩
          subst hd2
          exact ⟨⟨hy, hm⟩, hd⟩
  · show isCompleted env t = true ↔ _
    unfold isCompleted
    cases he : t.endDate with
    | none => simp
    | some str =>
      by_cases hs : str = ""
      · simp [hs]
      · simp only [hs, if_false]
        cases hp : env.parse str with
        | none =>
          simp only [Option.some.injEq]
          constructor
          · intro hfalse
            exact absurd hfalse (by decide)
          · rintro ⟨str2, d2, hseq, hs2, hp2, hlt⟩
            subst hseq
            rw [hp] at hp2
            exact absurd hp2 (by simp)
        | some d =>
          simp only [Option.some.injEq, decide_eq_true_eq]
          constructor
          · intro hlt
            exact ⟨str, d, rfl, hs, hp, hlt⟩
          · rintro ⟨str2, d2, hseq, hs2, hp2, hlt⟩
            subst hseq
            rw [hp] at hp2
            cases hp2
            exact hlt
  · intro he
    show isCompleted env t = false
    unfold isCompleted
    rw [he]

/-- Date environment for the witness: yesterday and today both parse,
with now on the local calendar day 2026-10-11. -/
def witnessEnv : DateEnv :=
  { parse := fun str =>
      if str = "2026-10-10" then some ⟨-86400000, 2026, 9, 10⟩
      else if str = "2026-10-11" then some ⟨0, 2026, 9, 11⟩
      else none
    now := ⟨0, 2026, 9, 11⟩
    fmtFR := fun _ => "formatted"
    toISO := fun _ => "" }

/-- Task starting today with an end date yesterday. -/
def witnessTodo : Todo :=
  { id := none
    titre := "X"
    person := none
    startDate := "2026-10-11"
    endDate := some "2026-10-10"
    priority := some .Difficile
    labels := none
    description := none }

theorem matchesViewFilter_spec_witness :
    matchesViewFilter witnessEnv .completed witnessTodo = true ∧
    matchesViewFilter witnessEnv .today witnessTodo = true ∧
    matchesViewFilter witnessEnv .priority witnessTodo = true := by
  have h := matchesViewFilter_spec witnessEnv witnessTodo
  refine ⟨h.2.2.1.1.mpr ⟨"2026-10-10", ⟨-86400000, 2026, 9, 10⟩, rfl, by decide,
    by decide, by decide⟩, ?_, h.1.1.mpr rfl⟩
  exact h.2.1.mpr ⟨by decide, ⟨0, 2026, 9, 11⟩, by decide, rfl, rfl, rfl⟩

/-- Row builder as the spec words it: task name; responsible person name
or the fallback placeholder; priority or empty string; comma-joined label
list; locale-formatted start date; locale-formatted end date; description
or empty string. -/
def exportRowSpec (env : DateEnv) (todo : Todo) : ExportRow :=
  { tache := todo.titre
    responsable := (todo.person.map (fun p => p.name)).getD "Sans responsable"
    priorite := (todo.priority.map Priority.str).getD ""
    etiquettes := String.intercalate ", " ((todo.labels.getD []).map Label.str)
    debut := formatDateForExport env (some todo.startDate)
    fin := formatDateForExport env todo.endDate
    description := todo.description.getD "" }

/-- C4: buildExportRows maps the filtered (not the paged) task set, row
by row, through the fixed-column row builder; a missing person renders
the fallback placeholder, a missing or invalid date renders the empty
string, and a missing description renders the empty string, never the
strings undefined or null. -/
theorem buildExportRows_spec (env : DateEnv) (s : ListState) :
    buildExportRows env s = s.filteredTodos.map (exportRowSpec env) ∧
    (∀ t : Todo, t.person = none →
      (exportRowSpec env t).responsable = "Sans responsable") ∧
    (∀ t : Todo, t.endDate = none → (exportRowSpec env t).fin = "") ∧
    (∀ v : String, env.parse v = none → formatDateForExport env (some v) = "") ∧
    (∀ t : Todo, t.description = none →
      (exportRowSpec env t).description = "" ∧
      (exportRowSpec env t).description ≠ "undefined" ∧
      (exportRowSpec env t).description ≠ "null") := by
  refine ⟨rfl, ?_, ?_, ?_, ?_⟩
  · intro t ht
    simp [exportRowSpec, ht]
  · intro t ht
    simp [exportRowSpec, formatDateForExport, ht]
  · intro v hv
    by_cases h0 : v = "" <;> simp [formatDateForExport, h0, hv]
  · intro t ht
    refine ⟨by simp [exportRowSpec, ht], by simp [exportRowSpec, ht], by simp [exportRowSpec, ht]⟩

theorem buildExportRows_spec_witness :
    buildExportRows datelessEnv initListState = [] ∧
    (exportRowSpec datelessEnv sampleTodo).responsable = "Sans responsable" ∧
    (exportRowSpec datelessEnv sampleTodo).fin = "" ∧
    formatDateForExport datelessEnv (some "not-a-date") = "" ∧
    (exportRowSpec datelessEnv sampleTodo).description = "" := by
  have h := buildExportRows_spec datelessEnv initListState
  refine ⟨h.1, h.2.1 sampleTodo rfl, h.2.2.1 sampleTodo rfl,
    h.2.2.2.1 "not-a-date" rfl, (h.2.2.2.2 sampleTodo rfl).1⟩

theorem charsStartWith_iff (pat : List Char) : ∀ l : List Char,
    (charsStartWith l pat = true ↔ ∃ rest, l = pat ++ rest) := by
  induction pat with
  | nil =>
    intro l
    cases l <;> simp [charsStartWith]
  | cons b bs ih =>
    intro l
    cases l with
    | nil =>
      simp [charsStartWith]
    | cons a as =>
      simp only [charsStartWith, Bool.and_eq_true, decide_eq_true_eq, ih,
        List.cons_append, List.cons.injEq]
      constructor
      · rintro ⟨hab, rest, hr⟩
        exact ⟨rest, hab, hr⟩
      · rintro ⟨rest, hab, hr⟩
        exact ⟨hab, rest, hr⟩

theorem charsContain_iff (pat : List Char) : ∀ l : List Char,
    (charsContain l pat = true ↔ ∃ pre post, l = pre ++ pat ++ post) := by
  intro l
  induction l with
  | nil =>
    simp only [charsContain, List.isEmpty_iff]
    constructor
    · intro hp
      exact ⟨[], [], by simp [hp]⟩
    · rintro ⟨pre, post, h⟩
      rcases List.append_eq_nil.mp (List.append_eq_nil.mp h.symm).1 with ⟨-, h2⟩
      exact h2
  | cons a as ih =>
    simp only [charsContain, Bool.or_eq_true, charsStartWith_iff, ih]
    constructor
    · rintro (⟨rest, hr⟩ | ⟨pre, post, h⟩)
      · exact ⟨[], rest, by simp [hr]⟩
      · exact ⟨a :: pre, post, by simp [h]⟩
    · rintro ⟨pre, post, h⟩
      cases pre with
      | nil =>
        left
        exact ⟨post, by simpa using h⟩
      | cons x xs =>
        right
        rw [List.cons_append, List.cons_append, List.cons.injEq] at h
        exact ⟨xs, post, h.2⟩

theorem jsIncludes_iff (s pat : String) :
    jsIncludes s pat = true ↔ ∃ pre post, s.data = pre ++ pat.data ++ post :=
  charsContain_iff pat.data s.data

/-- C8: for a term that is nonempty after trimming, the search predicate
used by applyFilters keeps a task exactly when the trimmed lowercased
term occurs as a contiguous substring of the lowercased title or of the
lowercased name of the assigned person; a term that is empty after
trimming filters nothing out, leaving the result of the other three
filters unchanged. -/
theorem search_predicate_spec (env : DateEnv) (s : ListState) (term : String) (t : Todo) :
    (jsTrim term ≠ "" →
      (searchMatches (jsToLower (jsTrim term)) t = true ↔
        (∃ pre post,
          (jsToLower t.titre).data =
            pre ++ (jsToLower (jsTrim term)).data ++ post) ∨
        (∃ pre post,
          ((t.person.map (fun p => jsToLower p.name)).getD "").data =
            pre ++ (jsToLower (jsTrim term)).data ++ post))) ∧
    (jsTrim s.searchTerm = "" →
      (applyFilters env s).filteredTodos =
        s.allTodos.filter (fun todo =>
          (matchesViewFilter env s.viewFilter todo
              && prioPredOf s.currentPriority todo)
            && labelPredOf s.currentLabel todo)) := by
  constructor
  · intro _
    simp only [searchMatches, Bool.or_eq_true, jsIncludes_iff]
  · intro h
    rw [applyFilters_filteredTodos]
    exact List.filter_congr (fun todo _ => by
      simp [keepTodo, searchPredOf, h])

/-- Task whose assigned person is Jean Dupont. -/
def jeanTodo : Todo :=
  { id := none
    titre := "Tache"
    person := some ⟨1, "Jean Dupont"⟩
    startDate := ""
    endDate := none
    priority := none
    labels := none
    description := none }

theorem search_predicate_spec_witness :
    searchMatches (jsToLower (jsTrim "jean")) jeanTodo = true := by
  have h := (search_predicate_spec datelessEnv initListState "jean" jeanTodo).1 (by decide)
  exact h.mpr (Or.inr ⟨[], " dupont".data, by decide⟩)

/-- C9: when at least one of the required fields title, assigned person
or start date is invalid, save emits no create or update request, marks
every form control touched, and does not close the dialog. -/
theorem save_invalid_form (env : DateEnv) (s : ModalState)
    (h : s.form.titre = "" ∨ s.form.personId = none ∨ s.form.startDate = none) :
    (save env s).2 = none ∧
    (save env s).1.form.touched = ⟨true, true, true, true, true, true, true⟩ ∧
    (save env s).1.closed = s.closed := by
  have hinv : formInvalid s.form = true := by
    rcases h with h | h | h <;> simp [formInvalid, h]
  unfold save
  rw [if_pos hinv]
  exact ⟨rfl, rfl, rfl⟩

/-- Modal state in create mode whose form still has the initial values of
buildForm: empty title, no person, no start date. -/
def emptyModal : ModalState :=
  { mode := .create
    origTodo := none
    persons := []
    form :=
      { titre := ""
        personId := none
        startDate := none
        endDate := none
        priority := some .Moyen
        labels := []
        description := ""
        touched := ⟨false, false, false, false, false, false, false⟩ }
    isSaving := false
    closed := none }

theorem save_invalid_form_witness :
    (save datelessEnv emptyModal).2 = none ∧
    (save datelessEnv emptyModal).1.form.touched =
      ⟨true, true, true, true, true, true, true⟩ ∧
    (save datelessEnv emptyModal).1.closed = none :=
  save_invalid_form datelessEnv emptyModal (Or.inl rfl)
